import Mathlib

/-!
Shallow embedding of the tv-game pairing/negotiation subsystem.

The relay service is the tRPC `signalingRouter` (src/unnamed/part_000) over a
Prisma store with three tables: `signalingSession`, `phoneConnection` and
`iceCandidate`.  Rows are modelled as lists kept in insertion order; every row
is inserted with the current timestamp, so `orderBy createdAt asc` coincides
with list order and is modelled as the identity, and `findFirst orderBy
createdAt desc` is modelled by scanning for the maximal `createdAt`.

The display ("TV") engine is src/src/snake/tvController.ts and the controller
("phone") engine is src/src/snake/phoneController.ts; their relevant handlers
are embedded as explicit state-passing functions that also return the list of
externally visible effects (relay calls, signals fed to the local peer) in the
order the code performs them.
-/

/-- SDP descriptor relayed between the peers (`sdpSignalSchema` in
src/unnamed/part_000): a `type` tag and the opaque handshake blob. -/
structure SdpSignal where
  type : String
  sdp : String
deriving DecidableEq

/-- ICE candidate payload (`iceCandidateSchema`): a connection string plus two
nullable locator fields. -/
structure IceCandidate where
  candidate : String
  sdpMLineIndex : Option Int
  sdpMid : Option String
deriving DecidableEq

/-- One row of the `iceCandidate` table: owned either by a session
(display-origin, `sessionId` set) or by a phone connection (controller-origin,
`phoneConnectionId` set). -/
structure IceCandidateRecord where
  sessionId : Option String
  phoneConnectionId : Option String
  candidate : IceCandidate
deriving DecidableEq

/-- One row of the `signalingSession` table: the display's offer plus the
creation/update timestamps used for recency and staleness. -/
structure SignalingSession where
  id : String
  tvOffer : SdpSignal
  createdAt : Nat
  updatedAt : Nat
deriving DecidableEq

/-- One row of the `phoneConnection` table, created by `joinSession`. -/
structure PhoneConnection where
  id : String
  sessionId : String
  answer : Option SdpSignal
deriving DecidableEq

/-- The relay store: the three tables, each in insertion order. -/
structure Db where
  sessions : List SignalingSession
  phoneConnections : List PhoneConnection
  iceCandidates : List IceCandidateRecord
deriving DecidableEq

/-- The empty store. -/
def dbEmpty : Db := ⟨[], [], []⟩

/-- Staleness sweep (`cleanupOldSessions`): delete every session whose
`updatedAt` is strictly older than five minutes (300000 ms) before `now`.
The related `phoneConnection` and `iceCandidate` rows cascade with the
session (the Prisma schema file is not under src/; the cascade follows the
design's teardown/cleanup description, and no claim below depends on it). -/
def cleanupOldSessions (now : Nat) (db : Db) : Db :=
  let staleIds := (db.sessions.filter (fun s => s.updatedAt < now - 300000)).map (·.id)
  let deadConns :=
    (db.phoneConnections.filter (fun c => staleIds.contains c.sessionId)).map (·.id)
  { sessions := db.sessions.filter (fun s => !(s.updatedAt < now - 300000)),
    phoneConnections := db.phoneConnections.filter (fun c => !(staleIds.contains c.sessionId)),
    iceCandidates := db.iceCandidates.filter (fun r =>
      !(match r.sessionId with | some sid => staleIds.contains sid | none => false)
      && !(match r.phoneConnectionId with | some pid => deadConns.contains pid | none => false)) }

/-- `createSession`: run the staleness sweep, then insert a fresh session
holding the display's offer; returns the new session id. -/
def createSession (now : Nat) (newId : String) (offer : SdpSignal) (db : Db) : Db × String :=
  let db1 := cleanupOldSessions now db
  ({ db1 with sessions := db1.sessions ++ [⟨newId, offer, now, now⟩] }, newId)

/-- `addTvIceCandidate`: append a display-origin candidate owned by the session. -/
def addTvIceCandidate (sid : String) (c : IceCandidate) (db : Db) : Db :=
  { db with iceCandidates := db.iceCandidates ++ [⟨some sid, none, c⟩] }

/-- `addPhoneIceCandidate`: append a controller-origin candidate owned by the
phone connection. -/
def addPhoneIceCandidate (pid : String) (c : IceCandidate) (db : Db) : Db :=
  { db with iceCandidates := db.iceCandidates ++ [⟨none, some pid, c⟩] }

/-- The session-owned (display-origin) candidate log of `sid`, in insertion
(`createdAt` ascending) order. -/
def sessionCandidates (db : Db) (sid : String) : List IceCandidate :=
  (db.iceCandidates.filter (fun r => r.sessionId == some sid)).map (·.candidate)

/-- The candidate log owned by phone connection `pid`, in insertion order. -/
def connectionCandidates (db : Db) (pid : String) : List IceCandidate :=
  (db.iceCandidates.filter (fun r => r.phoneConnectionId == some pid)).map (·.candidate)

/-- `getTvIceCandidates` (the relay's `listConnectionCandidatesSince`):
session-owned candidates ordered by `createdAt` with `skip afterIndex`,
returned together with `nextIndex = afterIndex + length of result`. -/
def getTvIceCandidates (sid : String) (afterIndex : Nat) (db : Db) :
    List IceCandidate × Nat :=
  let cs := (sessionCandidates db sid).drop afterIndex
  (cs, afterIndex + cs.length)

/-- `joinSession`: insert a phone connection carrying the controller's answer;
returns the new phone id.  The session id is not checked for existence. -/
def joinSession (sid : String) (answer : SdpSignal) (newId : String) (db : Db) : Db × String :=
  ({ db with phoneConnections := db.phoneConnections ++ [⟨newId, sid, some answer⟩] }, newId)

/-- View of one joined connection as returned by `getPhoneConnections`. -/
structure PhoneConnectionView where
  phoneId : String
  answer : Option SdpSignal
  iceCandidates : List IceCandidate
deriving DecidableEq

/-- `getPhoneConnections`: all connections joined to `sid` in join order, each
with its own candidate log in sequence order. -/
def getPhoneConnections (sid : String) (db : Db) : List PhoneConnectionView :=
  (db.phoneConnections.filter (fun c => c.sessionId == sid)).map
    (fun c => ⟨c.id, c.answer, connectionCandidates db c.id⟩)

/-- `clearSession` (the relay's `teardownSession`): delete the session and,
per the cascading schema, its joined connections and candidate logs; deleting
an absent session is not an error. -/
def clearSession (sid : String) (db : Db) : Db :=
  let deadConns := (db.phoneConnections.filter (fun c => c.sessionId == sid)).map (·.id)
  { sessions := db.sessions.filter (fun s => !(s.id == sid)),
    phoneConnections := db.phoneConnections.filter (fun c => !(c.sessionId == sid)),
    iceCandidates := db.iceCandidates.filter (fun r =>
      !(r.sessionId == some sid)
      && !(match r.phoneConnectionId with | some pid => deadConns.contains pid | none => false)) }

/-- `findFirst orderBy createdAt desc` over the session table: the session
with maximal `createdAt` (earliest inserted wins a tie). -/
def latestSession : List SignalingSession → Option SignalingSession
  | [] => none
  | s :: rest =>
    match latestSession rest with
    | none => some s
    | some t => if t.createdAt > s.createdAt then some t else some s

/-- Discovery result of `getAvailableSession`. -/
structure AvailableSession where
  sessionId : String
  offer : SdpSignal
  tvIceCandidates : List IceCandidate
deriving DecidableEq

/-- `getAvailableSession` (the relay's `discoverLatestSession`): run the
staleness sweep, then return the most recently created remaining session with
its offer and the snapshot of its session-owned candidate log. -/
def getAvailableSession (now : Nat) (db : Db) : Db × Option AvailableSession :=
  let db1 := cleanupOldSessions now db
  match latestSession db1.sessions with
  | none => (db1, none)
  | some s => (db1, some ⟨s.id, s.tvOffer, sessionCandidates db1 s.id⟩)

/-- One candidate-append call against the relay: either a display-origin append
to the session under scrutiny, or a controller-origin append to some phone
connection. -/
inductive CandidateAppend where
  | tv (c : IceCandidate)
  | phone (pid : String) (c : IceCandidate)
deriving DecidableEq

/-- Replay a sequence of candidate-append calls against the store. -/
def applyAppends (sid : String) (db : Db) : List CandidateAppend → Db
  | [] => db
  | CandidateAppend.tv c :: rest => applyAppends sid (addTvIceCandidate sid c db) rest
  | CandidateAppend.phone pid c :: rest => applyAppends sid (addPhoneIceCandidate pid c db) rest

/-- The display-origin candidates of an append sequence, in call order. -/
def tvAppends : List CandidateAppend → List IceCandidate
  | [] => []
  | CandidateAppend.tv c :: rest => c :: tvAppends rest
  | CandidateAppend.phone _ _ :: rest => tvAppends rest

theorem sessionCandidates_addTv (db : Db) (sid : String) (c : IceCandidate) :
    sessionCandidates (addTvIceCandidate sid c db) sid = sessionCandidates db sid ++ [c] := by
  simp [sessionCandidates, addTvIceCandidate]

theorem sessionCandidates_addPhone (db : Db) (sid pid : String) (c : IceCandidate) :
    sessionCandidates (addPhoneIceCandidate pid c db) sid = sessionCandidates db sid := by
  simp [sessionCandidates, addPhoneIceCandidate]

theorem sessionCandidates_applyAppends (sid : String) (evs : List CandidateAppend) :
    ∀ db : Db, sessionCandidates (applyAppends sid db evs) sid
      = sessionCandidates db sid ++ tvAppends evs := by
  induction evs with
  | nil => intro db; simp [applyAppends, tvAppends]
  | cons e rest ih =>
      intro db
      cases e with
      | tv c =>
          simp [applyAppends, tvAppends, ih, sessionCandidates_addTv]
      | phone pid c =>
          simp [applyAppends, tvAppends, ih, sessionCandidates_addPhone]

/-- C1.  Against a store holding no candidates for the session, any interleaved
sequence of display-origin appends (`addTvIceCandidate`) and controller-origin
appends (`addPhoneIceCandidate`) leaves `getTvIceCandidates sid k` returning
exactly the suffix of the display-origin appends after the first `k`, in call
order, with `nextIndex = k + length of the returned list`; in particular at
cursor 0 it returns all of them in call order, and controller-origin appends
are never returned. -/
theorem getTvIceCandidates_replaysAppends (sid : String) (db : Db)
    (evs : List CandidateAppend) (k : Nat)
    (h : sessionCandidates db sid = []) :
    getTvIceCandidates sid k (applyAppends sid db evs)
      = ((tvAppends evs).drop k, k + ((tvAppends evs).drop k).length) := by
  have hs := sessionCandidates_applyAppends sid evs db
  rw [h] at hs
  simp [getTvIceCandidates, hs]

/-- C1 witness: three interleaved appends against the empty store, read back
from cursor 1. -/
theorem getTvIceCandidates_replaysAppends_instance :
    getTvIceCandidates ("s") 1
        (applyAppends ("s") dbEmpty
          [CandidateAppend.tv ⟨("a"), none, none⟩,
           CandidateAppend.phone ("p") ⟨("b"), some 0, none⟩,
           CandidateAppend.tv ⟨("c"), none, some ("m")⟩])
      = ([⟨("c"), none, some ("m")⟩], 2) := by
  have h := getTvIceCandidates_replaysAppends ("s") dbEmpty
    [CandidateAppend.tv ⟨("a"), none, none⟩,
     CandidateAppend.phone ("p") ⟨("b"), some 0, none⟩,
     CandidateAppend.tv ⟨("c"), none, some ("m")⟩] 1 (by decide)
  simpa [tvAppends] using h

theorem latestSession_eq_none (l : List SignalingSession) :
    latestSession l = none → l = [] := by
  cases l with
  | nil => intro _; rfl
  | cons s rest =>
      intro h
      simp only [latestSession] at h
      cases hr : latestSession rest with
      | none => rw [hr] at h; simp at h
      | some t => rw [hr] at h; by_cases hc : t.createdAt > s.createdAt <;> simp [hc] at h

theorem latestSession_spec (l : List SignalingSession) :
    ∀ s, latestSession l = some s → s ∈ l ∧ ∀ t ∈ l, t.createdAt ≤ s.createdAt := by
  induction l with
  | nil => intro s h; simp [latestSession] at h
  | cons a rest ih =>
      intro s h
      simp only [latestSession] at h
      cases hr : latestSession rest with
      | none =>
          rw [hr] at h
          simp only [Option.some.injEq] at h
          subst h
          have hnil := latestSession_eq_none rest hr
          subst hnil
          exact ⟨List.mem_cons_self _ _, by intro t ht; simp at ht; simp [ht]⟩
      | some t =>
          rw [hr] at h
          have ht := ih t hr
          by_cases hc : t.createdAt > a.createdAt
          · simp only [hc, if_true, Option.some.injEq] at h
            subst h
            refine ⟨List.mem_cons_of_mem _ ht.1, ?_⟩
            intro u hu
            rcases List.mem_cons.mp hu with h1 | h2
            · subst h1; omega
            · exact ht.2 u h2
          · simp only [hc, if_false, Option.some.injEq] at h
            subst h
            refine ⟨List.mem_cons_self _ _, ?_⟩
            intro u hu
            rcases List.mem_cons.mp hu with h1 | h2
            · subst h1; omega
            · have := ht.2 u h2; omega

/-- C5.  First conjunct: whenever discovery returns a session, that session is
a member of the table left by the staleness sweep (so its `updatedAt` is not
older than five minutes), it carries the returned offer and candidate
snapshot, and no surviving session was created later.  Second conjunct: from a
store with no sessions, after two publishes (the second strictly later) the
discovery call returns the second session only, provided it is not yet stale
at discovery time. -/
theorem getAvailableSession_mostRecent :
    (∀ now db a, (getAvailableSession now db).2 = some a →
      ∃ s ∈ (cleanupOldSessions now db).sessions,
        a.sessionId = s.id ∧ a.offer = s.tvOffer
        ∧ a.tvIceCandidates = sessionCandidates (cleanupOldSessions now db) s.id
        ∧ ¬ s.updatedAt < now - 300000
        ∧ ∀ t ∈ (cleanupOldSessions now db).sessions, t.createdAt ≤ s.createdAt)
    ∧ (∀ db t1 t2 t3 id1 id2 o1 o2, db.sessions = [] → t1 < t2 → ¬ t2 < t3 - 300000 →
      ((getAvailableSession t3 (createSession t2 id2 o2 (createSession t1 id1 o1 db).1).1).2).map
          (fun a => (a.sessionId, a.offer)) = some (id2, o2)) := by
  constructor
  · intro now db a ha
    simp only [getAvailableSession] at ha
    cases hl : latestSession (cleanupOldSessions now db).sessions with
    | none => rw [hl] at ha; simp at ha
    | some s =>
        rw [hl] at ha
        simp only [Option.some.injEq] at ha
        subst ha
        have hspec := latestSession_spec (cleanupOldSessions now db).sessions s hl
        refine ⟨s, hspec.1, rfl, rfl, rfl, ?_, hspec.2⟩
        have hmem := hspec.1
        simp only [cleanupOldSessions, List.mem_filter] at hmem
        simpa using hmem.2
  · intro db t1 t2 t3 id1 id2 o1 o2 hnil h12 h23
    have hdb1 : (createSession t1 id1 o1 db).1.sessions = [⟨id1, o1, t1, t1⟩] := by
      simp [createSession, cleanupOldSessions, hnil]
    by_cases hstale1 : t1 < t2 - 300000
    · have hdb2 : (createSession t2 id2 o2 (createSession t1 id1 o1 db).1).1.sessions
          = [⟨id2, o2, t2, t2⟩] := by
        simp [createSession, cleanupOldSessions, hdb1, hstale1, hnil]
      simp [getAvailableSession, cleanupOldSessions, hdb2, h23, latestSession, hnil]
    · have hdb2 : (createSession t2 id2 o2 (createSession t1 id1 o1 db).1).1.sessions
          = [⟨id1, o1, t1, t1⟩, ⟨id2, o2, t2, t2⟩] := by
        simp [createSession, cleanupOldSessions, hdb1, hstale1, hnil]
      by_cases hstale2 : t1 < t3 - 300000
      · simp [getAvailableSession, cleanupOldSessions, hdb2, h23, hstale2, latestSession, hnil]
      · simp [getAvailableSession, cleanupOldSessions, hdb2, h23, hstale2, latestSession, h12, hnil]

/-- C5 witness: discovery over a one-session store, and the two-publish
scenario at concrete timestamps. -/
theorem getAvailableSession_mostRecent_instance :
    (∃ s ∈ (cleanupOldSessions 10 ⟨[⟨("x"), ⟨("offer"), ("sdpX")⟩, 5, 5⟩], [], []⟩).sessions,
      (AvailableSession.mk ("x") ⟨("offer"), ("sdpX")⟩ []).sessionId = s.id
      ∧ (AvailableSession.mk ("x") ⟨("offer"), ("sdpX")⟩ []).offer = s.tvOffer
      ∧ (AvailableSession.mk ("x") ⟨("offer"), ("sdpX")⟩ []).tvIceCandidates
          = sessionCandidates (cleanupOldSessions 10 ⟨[⟨("x"), ⟨("offer"), ("sdpX")⟩, 5, 5⟩], [], []⟩) s.id
      ∧ ¬ s.updatedAt < 10 - 300000
      ∧ ∀ t ∈ (cleanupOldSessions 10 ⟨[⟨("x"), ⟨("offer"), ("sdpX")⟩, 5, 5⟩], [], []⟩).sessions,
          t.createdAt ≤ s.createdAt)
    ∧ ((getAvailableSession 3 (createSession 2 ("b") ⟨("offer"), ("o2")⟩
          (createSession 1 ("a") ⟨("offer"), ("o1")⟩ dbEmpty).1).1).2).map
        (fun a => (a.sessionId, a.offer)) = some (("b"), ⟨("offer"), ("o2")⟩) := by
  constructor
  · exact getAvailableSession_mostRecent.1 10 ⟨[⟨("x"), ⟨("offer"), ("sdpX")⟩, 5, 5⟩], [], []⟩
      (AvailableSession.mk ("x") ⟨("offer"), ("sdpX")⟩ []) (by decide)
  · exact getAvailableSession_mostRecent.2 dbEmpty 1 2 3 ("a") ("b")
      ⟨("offer"), ("o1")⟩ ⟨("offer"), ("o2")⟩ (by decide) (by decide) (by decide)

/-- JSON-like value for request bodies, as seen by the zod input validators.
Numbers are modelled as integers; no claim below depends on fractional
values. -/
inductive Json where
  | null
  | bool (b : Bool)
  | num (n : Int)
  | str (s : String)
  | arr (items : List Json)
  | obj (fields : List (String × Json))

/-- Object field access: the first binding of `key`, if the value is an object. -/
def Json.getField : Json → String → Option Json
  | Json.obj fields, key => List.lookup key fields
  | _, _ => none

/-- `sdpSignalSchema`: an object whose `type` is the string literal offer or
answer and whose `sdp` is any string (zod's `z.string()` accepts the empty
string). -/
def parseSdpSignal (j : Json) : Option SdpSignal :=
  match j.getField ("type"), j.getField ("sdp") with
  | some (Json.str t), some (Json.str s) =>
      if t == ("offer") || t == ("answer") then some ⟨t, s⟩ else none
  | _, _ => none

/-- `z.number().nullable()`: a number or null. -/
def parseNullableNum : Json → Option (Option Int)
  | Json.null => some none
  | Json.num n => some (some n)
  | _ => none

/-- `z.string().nullable()`: a string or null. -/
def parseNullableStr : Json → Option (Option String)
  | Json.null => some none
  | Json.str s => some (some s)
  | _ => none

/-- Body of `iceCandidateSchema` applied to the nested `candidate` object: a
string `candidate` (any string) and nullable `sdpMLineIndex`/`sdpMid`. -/
def parseIceCandidateInner (inner : Json) : Option IceCandidate :=
  match inner.getField ("candidate"), inner.getField ("sdpMLineIndex"),
      inner.getField ("sdpMid") with
  | some (Json.str c), some ml, some mid =>
      match parseNullableNum ml, parseNullableStr mid with
      | some a, some b => some ⟨c, a, b⟩
      | _, _ => none
  | _, _, _ => none

/-- `iceCandidateSchema`: an object with a nested `candidate` object. -/
def parseIceCandidate (j : Json) : Option IceCandidate :=
  (j.getField ("candidate")).bind parseIceCandidateInner

/-- `z.string()` for plain string fields such as `sessionId`/`phoneId`. -/
def parseStr : Json → Option String
  | Json.str s => some s
  | _ => none

/-- The `createSession` endpoint: validate `{ offer: sdpSignalSchema }`, then
mutate the store; on validation failure the request is rejected and the store
is returned untouched. -/
def createSessionApi (now : Nat) (newId : String) (input : Json) (db : Db) :
    Db × Option String :=
  match (input.getField ("offer")).bind parseSdpSignal with
  | some offer => let r := createSession now newId offer db; (r.1, some r.2)
  | none => (db, none)

/-- The `joinSession` endpoint: validate `{ sessionId: string, answer:
sdpSignalSchema }`, then insert the phone connection. -/
def joinSessionApi (newId : String) (input : Json) (db : Db) :
    Db × Option String :=
  match (input.getField ("sessionId")).bind parseStr,
      (input.getField ("answer")).bind parseSdpSignal with
  | some sid, some answer => let r := joinSession sid answer newId db; (r.1, some r.2)
  | _, _ => (db, none)

/-- The `addTvIceCandidate` endpoint: validate `{ sessionId: string,
candidate: iceCandidateSchema }`, then append to the session log. -/
def addTvIceCandidateApi (input : Json) (db : Db) : Db × Bool :=
  match (input.getField ("sessionId")).bind parseStr,
      (input.getField ("candidate")).bind parseIceCandidate with
  | some sid, some c => (addTvIceCandidate sid c db, true)
  | _, _ => (db, false)

/-- The `addPhoneIceCandidate` endpoint: validate `{ phoneId: string,
candidate: iceCandidateSchema }`, then append to the connection log. -/
def addPhoneIceCandidateApi (input : Json) (db : Db) : Db × Bool :=
  match (input.getField ("phoneId")).bind parseStr,
      (input.getField ("candidate")).bind parseIceCandidate with
  | some pid, some c => (addPhoneIceCandidate pid c db, true)
  | _, _ => (db, false)

/-- C4 counterexample: the claim says a publish whose handshake string is
empty, or whose `type` is not exactly the string offer, is rejected before any
store mutation; but `createSession` accepts an offer blob with an empty `sdp`
and also accepts one whose `type` is the string answer, mutating the store in
both cases. -/
theorem createSessionApi_acceptsEmptyAndAnswer :
    ((createSessionApi 0 ("s1")
        (Json.obj [(("offer"),
          Json.obj [(("type"), Json.str ("offer")), (("sdp"), Json.str (""))])])
        dbEmpty).2 = some ("s1")
      ∧ (createSessionApi 0 ("s1")
        (Json.obj [(("offer"),
          Json.obj [(("type"), Json.str ("offer")), (("sdp"), Json.str (""))])])
        dbEmpty).1 ≠ dbEmpty)
    ∧ ((createSessionApi 0 ("s1")
        (Json.obj [(("offer"),
          Json.obj [(("type"), Json.str ("answer")), (("sdp"), Json.str ("x"))])])
        dbEmpty).2 = some ("s1")
      ∧ (createSessionApi 0 ("s1")
        (Json.obj [(("offer"),
          Json.obj [(("type"), Json.str ("answer")), (("sdp"), Json.str ("x"))])])
        dbEmpty).1 ≠ dbEmpty) := by
  decide

/-- Claim-side validity of an offer/answer blob, written from the amended
claim: an object whose `type` field is the string offer or the string answer
(either value, at every endpoint) and whose `sdp` field is any string,
possibly empty. -/
def amendedSdpBlobValid (j : Json) : Bool :=
  match j.getField ("type"), j.getField ("sdp") with
  | some (Json.str t), some (Json.str _) => t == ("offer") || t == ("answer")
  | _, _ => false

/-- Claim-side validity of the nested `candidate` object, written from the
amended claim: the connection string is any string, possibly empty, and the
two locator fields are each a number/string or null. -/
def amendedCandidateValidInner (inner : Json) : Bool :=
  match inner.getField ("candidate"), inner.getField ("sdpMLineIndex"),
      inner.getField ("sdpMid") with
  | some (Json.str _), some ml, some mid =>
      (match ml with | Json.null => true | Json.num _ => true | _ => false)
      && (match mid with | Json.null => true | Json.str _ => true | _ => false)
  | _, _, _ => false

/-- Claim-side validity of a candidate payload, written from the amended claim. -/
def amendedCandidateValid (j : Json) : Bool :=
  match j.getField ("candidate") with
  | some inner => amendedCandidateValidInner inner
  | none => false

theorem parseSdpSignal_isSome (j : Json) :
    (parseSdpSignal j).isSome = amendedSdpBlobValid j := by
  unfold parseSdpSignal amendedSdpBlobValid
  cases j.getField ("type") with
  | none => rfl
  | some t =>
      cases j.getField ("sdp") with
      | none => cases t <;> rfl
      | some s => cases t <;> cases s <;> first
        | rfl
        | (rename_i ts _; by_cases h : ts == ("offer") || ts == ("answer")
           · simp [h]
           · simp [h])

theorem parseIceCandidateInner_isSome (inner : Json) :
    (parseIceCandidateInner inner).isSome = amendedCandidateValidInner inner := by
  unfold parseIceCandidateInner amendedCandidateValidInner
  cases inner.getField ("candidate") with
  | none => rfl
  | some c =>
      cases inner.getField ("sdpMLineIndex") with
      | none => cases c <;> rfl
      | some ml =>
          cases inner.getField ("sdpMid") with
          | none => cases c <;> rfl
          | some mid =>
              cases c <;> cases ml <;> cases mid <;>
                simp [parseNullableNum, parseNullableStr]

theorem parseIceCandidate_isSome (j : Json) :
    (parseIceCandidate j).isSome = amendedCandidateValid j := by
  unfold parseIceCandidate amendedCandidateValid
  cases j.getField ("candidate") with
  | none => rfl
  | some inner => simpa using parseIceCandidateInner_isSome inner

/-- Amended-claim validity of a `createSession` request body. -/
def amendedCreateValid (input : Json) : Bool :=
  match input.getField ("offer") with
  | some o => amendedSdpBlobValid o
  | none => false

/-- Amended-claim validity of a `joinSession` request body. -/
def amendedJoinValid (input : Json) : Bool :=
  (match input.getField ("sessionId") with
    | some (Json.str _) => true
    | _ => false)
  && (match input.getField ("answer") with
    | some a => amendedSdpBlobValid a
    | none => false)

/-- Amended-claim validity of a candidate request body keyed by `field` (the
`sessionId` of `addTvIceCandidate` or the `phoneId` of `addPhoneIceCandidate`). -/
def amendedCandidateRequestValid (field : String) (input : Json) : Bool :=
  (match input.getField field with
    | some (Json.str _) => true
    | _ => false)
  && (match input.getField ("candidate") with
    | some c => amendedCandidateValid c
    | none => false)

theorem bindParseSdp_isSome (o : Option Json) :
    (o.bind parseSdpSignal).isSome
      = match o with | some j => amendedSdpBlobValid j | none => false := by
  cases o with
  | none => rfl
  | some j => simpa using parseSdpSignal_isSome j

theorem bindParseIce_isSome (o : Option Json) :
    (o.bind parseIceCandidate).isSome
      = match o with | some j => amendedCandidateValid j | none => false := by
  cases o with
  | none => rfl
  | some j => simpa using parseIceCandidate_isSome j

theorem bindParseStr_isSome (o : Option Json) :
    (o.bind parseStr).isSome
      = match o with | some (Json.str _) => true | _ => false := by
  cases o with
  | none => rfl
  | some j => cases j <;> rfl

/-- C4 amended.  Every relay endpoint validates its body before touching the
store: a request is accepted exactly when it matches the declared shape —
`type` equal to the string offer or the string answer (either value, at every
endpoint) with a string `sdp` (empty accepted), string ids, and candidate
payloads whose connection string is a string (empty accepted) with locator
fields number-or-null / string-or-null — and a rejected request leaves the
store unchanged. -/
theorem signalingApi_validation (now : Nat) (newId : String) (input : Json) (db : Db) :
    ((createSessionApi now newId input db).2.isSome = amendedCreateValid input)
    ∧ ((createSessionApi now newId input db).2 = none
        → (createSessionApi now newId input db).1 = db)
    ∧ ((joinSessionApi newId input db).2.isSome = amendedJoinValid input)
    ∧ ((joinSessionApi newId input db).2 = none → (joinSessionApi newId input db).1 = db)
    ∧ ((addTvIceCandidateApi input db).2 = amendedCandidateRequestValid ("sessionId") input)
    ∧ ((addTvIceCandidateApi input db).2 = false → (addTvIceCandidateApi input db).1 = db)
    ∧ ((addPhoneIceCandidateApi input db).2 = amendedCandidateRequestValid ("phoneId") input)
    ∧ ((addPhoneIceCandidateApi input db).2 = false
        → (addPhoneIceCandidateApi input db).1 = db) := by
  refine ⟨?_, ?_, ?_, ?_, ?_, ?_, ?_, ?_⟩
  · unfold createSessionApi amendedCreateValid
    cases h : (input.getField ("offer")).bind parseSdpSignal with
    | none =>
        have := bindParseSdp_isSome (input.getField ("offer"))
        rw [h] at this
        simpa using this.symm
    | some offer =>
        have := bindParseSdp_isSome (input.getField ("offer"))
        rw [h] at this
        simpa using this.symm
  · unfold createSessionApi
    cases h : (input.getField ("offer")).bind parseSdpSignal with
    | none => intro _; rfl
    | some offer => intro hh; simp at hh
  · unfold joinSessionApi amendedJoinValid
    cases h1 : (input.getField ("sessionId")).bind parseStr with
    | none =>
        have t1 := bindParseStr_isSome (input.getField ("sessionId"))
        rw [h1] at t1
        cases h2 : (input.getField ("answer")).bind parseSdpSignal <;>
          simp [← t1, bindParseSdp_isSome]
    | some sid =>
        have t1 := bindParseStr_isSome (input.getField ("sessionId"))
        rw [h1] at t1
        cases h2 : (input.getField ("answer")).bind parseSdpSignal with
        | none =>
            have t2 := bindParseSdp_isSome (input.getField ("answer"))
            rw [h2] at t2
            simp [← t1, ← t2]
        | some a =>
            have t2 := bindParseSdp_isSome (input.getField ("answer"))
            rw [h2] at t2
            simp [← t1, ← t2]
  · unfold joinSessionApi
    cases h1 : (input.getField ("sessionId")).bind parseStr with
    | none => intro _; rfl
    | some sid =>
        cases h2 : (input.getField ("answer")).bind parseSdpSignal with
        | none => intro _; rfl
        | some a => intro hh; simp at hh
  · unfold addTvIceCandidateApi amendedCandidateRequestValid
    cases h1 : (input.getField ("sessionId")).bind parseStr with
    | none =>
        have t1 := bindParseStr_isSome (input.getField ("sessionId"))
        rw [h1] at t1
        cases h2 : (input.getField ("candidate")).bind parseIceCandidate <;>
          simp [← t1, bindParseIce_isSome]
    | some sid =>
        have t1 := bindParseStr_isSome (input.getField ("sessionId"))
        rw [h1] at t1
        cases h2 : (input.getField ("candidate")).bind parseIceCandidate with
        | none =>
            have t2 := bindParseIce_isSome (input.getField ("candidate"))
            rw [h2] at t2
            simp [← t1, ← t2]
        | some c =>
            have t2 := bindParseIce_isSome (input.getField ("candidate"))
            rw [h2] at t2
            simp [← t1, ← t2]
  · unfold addTvIceCandidateApi
    cases h1 : (input.getField ("sessionId")).bind parseStr with
    | none => intro _; rfl
    | some sid =>
        cases h2 : (input.getField ("candidate")).bind parseIceCandidate with
        | none => intro _; rfl
        | some c => intro hh; simp at hh
  · unfold addPhoneIceCandidateApi amendedCandidateRequestValid
    cases h1 : (input.getField ("phoneId")).bind parseStr with
    | none =>
        have t1 := bindParseStr_isSome (input.getField ("phoneId"))
        rw [h1] at t1
        cases h2 : (input.getField ("candidate")).bind parseIceCandidate <;>
          simp [← t1, bindParseIce_isSome]
    | some pid =>
        have t1 := bindParseStr_isSome (input.getField ("phoneId"))
        rw [h1] at t1
        cases h2 : (input.getField ("candidate")).bind parseIceCandidate with
        | none =>
            have t2 := bindParseIce_isSome (input.getField ("candidate"))
            rw [h2] at t2
            simp [← t1, ← t2]
        | some c =>
            have t2 := bindParseIce_isSome (input.getField ("candidate"))
            rw [h2] at t2
            simp [← t1, ← t2]
  · unfold addPhoneIceCandidateApi
    cases h1 : (input.getField ("phoneId")).bind parseStr with
    | none => intro _; rfl
    | some pid =>
        cases h2 : (input.getField ("candidate")).bind parseIceCandidate with
        | none => intro _; rfl
        | some c => intro hh; simp at hh

/-- C4 amended witness: a shapeless body is rejected by `createSession` and by
`addTvIceCandidate` with the store untouched. -/
theorem signalingApi_validation_instance :
    (createSessionApi 0 ("s") (Json.obj []) dbEmpty).1 = dbEmpty
    ∧ (addTvIceCandidateApi (Json.obj []) dbEmpty).1 = dbEmpty := by
  exact ⟨(signalingApi_validation 0 ("s") (Json.obj []) dbEmpty).2.1 rfl,
    (signalingApi_validation 0 ("s") (Json.obj []) dbEmpty).2.2.2.2.2.1 rfl⟩

/-- A signal fed into the single local initiator peer of the display
(`peer.signal(...)` in tvController.ts): either a remote SDP description or a
remote ICE candidate. -/
inductive PeerSignal where
  | sdp (s : SdpSignal)
  | cand (c : IceCandidate)
deriving DecidableEq

/-- The display's book-keeping for one joined phone (`PhoneConnection` in
tvController.ts): its id, connected flag and per-connection candidate cursor.
Every entry references the one shared `_initiatorPeer`. -/
structure PhoneEntry where
  phoneId : String
  connected : Bool
  lastCandidateIndex : Nat
deriving DecidableEq

/-- The display-side state that `pollForPhones` reads and writes: whether the
initiator peer exists, the `_processedPhones` set (as the list of ids in
insertion order) and the `phones` map (as an association list). -/
structure TvPollState where
  peerPresent : Bool
  processedPhones : List String
  phones : List PhoneEntry
deriving DecidableEq

/-- Lookup in the `phones` map. -/
def findPhone (l : List PhoneEntry) (pid : String) : Option PhoneEntry :=
  l.find? (fun p => p.phoneId == pid)

/-- Update the stored cursor of phone `pid`. -/
def setCursor (l : List PhoneEntry) (pid : String) (n : Nat) : List PhoneEntry :=
  l.map (fun p => if p.phoneId == pid then { p with lastCandidateIndex := n } else p)

/-- `handleNewPhoneConnection`: with the shared initiator peer available,
record the phone with its cursor set to the snapshot length, then signal the
answer to the peer followed by every snapshot candidate in sequence order;
without a peer, nothing happens. -/
def handleNewPhoneConnection (s : TvPollState) (pid : String) (answer : SdpSignal)
    (cands : List IceCandidate) : TvPollState × List PeerSignal :=
  if s.peerPresent then
    ({ s with phones := s.phones ++ [⟨pid, false, cands.length⟩] },
      PeerSignal.sdp answer :: cands.map PeerSignal.cand)
  else (s, [])

/-- The body of the `pollForPhones` loop for one joined connection: a
first-seen connection carrying an answer is marked processed and handed to
`handleNewPhoneConnection`; an already-processed connection has exactly the
candidates at or beyond its stored cursor signalled and the cursor advanced to
the new log length. -/
def processConn (s : TvPollState) (conn : PhoneConnectionView) :
    TvPollState × List PeerSignal :=
  if !(s.processedPhones.contains conn.phoneId) && conn.answer.isSome then
    match conn.answer with
    | some a =>
        handleNewPhoneConnection
          { s with processedPhones := s.processedPhones ++ [conn.phoneId] }
          conn.phoneId a conn.iceCandidates
    | none => (s, [])
  else if s.processedPhones.contains conn.phoneId then
    match findPhone s.phones conn.phoneId with
    | some phone =>
        if phone.lastCandidateIndex < conn.iceCandidates.length then
          ({ s with phones := setCursor s.phones conn.phoneId conn.iceCandidates.length },
            (conn.iceCandidates.drop phone.lastCandidateIndex).map PeerSignal.cand)
        else (s, [])
    | none => (s, [])
  else (s, [])

/-- One display poll tick (`pollForPhones`): fold the loop body over the
connection snapshot, concatenating the emitted peer signals in order. -/
def pollForPhones (s : TvPollState) : List PhoneConnectionView → TvPollState × List PeerSignal
  | [] => (s, [])
  | c :: rest =>
      let r1 := processConn s c
      let r2 := pollForPhones r1.1 rest
      (r2.1, r1.2 ++ r2.2)

theorem findPhone_append_of_none (l : List PhoneEntry) (pid : String) (e : PhoneEntry)
    (h : findPhone l pid = none) (he : e.phoneId = pid) :
    findPhone (l ++ [e]) pid = some e := by
  unfold findPhone at h ⊢
  rw [List.find?_append, h]
  simp [he]

theorem findPhone_setCursor (l : List PhoneEntry) (pid : String) (n : Nat) :
    findPhone (setCursor l pid n) pid
      = (findPhone l pid).map (fun p => { p with lastCandidateIndex := n }) := by
  induction l with
  | nil => rfl
  | cons p rest ih =>
      by_cases h : p.phoneId == pid
      · simp [findPhone, setCursor, List.find?, h]
      · simp only [setCursor, List.map] at ih ⊢
        simp only [h, if_neg, Bool.false_eq_true, if_false]
        unfold findPhone at ih ⊢
        simp only [List.find?, h]
        exact ih

/-- C2.  On a display poll tick, a joined connection seen for the first time
(with the initiator peer available) has its answer signalled to the local peer
strictly before any of its candidates, its snapshot candidates signalled in
sequence order, and its per-connection cursor set to the snapshot length; an
already-processed connection has exactly the candidates at indices at or
beyond the stored cursor signalled — none below reprocessed, none skipped —
and its cursor advanced to `max cursor length` (the new log length whenever
the append-only log has grown), so the cursor never decreases. -/
theorem pollForPhones_cursorDiscipline :
    (∀ (s : TvPollState) (conn : PhoneConnectionView) (a : SdpSignal),
      s.peerPresent = true → s.processedPhones.contains conn.phoneId = false →
      conn.answer = some a → findPhone s.phones conn.phoneId = none →
      (processConn s conn).2 = PeerSignal.sdp a :: conn.iceCandidates.map PeerSignal.cand
      ∧ findPhone (processConn s conn).1.phones conn.phoneId
          = some ⟨conn.phoneId, false, conn.iceCandidates.length⟩
      ∧ (processConn s conn).1.processedPhones.contains conn.phoneId = true)
    ∧ (∀ (s : TvPollState) (conn : PhoneConnectionView) (ph : PhoneEntry),
      s.processedPhones.contains conn.phoneId = true →
      findPhone s.phones conn.phoneId = some ph →
      (processConn s conn).2
          = (conn.iceCandidates.drop ph.lastCandidateIndex).map PeerSignal.cand
      ∧ (findPhone (processConn s conn).1.phones conn.phoneId).map (·.lastCandidateIndex)
          = some (max ph.lastCandidateIndex conn.iceCandidates.length)) := by
  constructor
  · intro s conn a hp hproc hans hfind
    unfold processConn
    rw [hproc, hans]
    simp only [Bool.not_false, Option.isSome_some, Bool.and_self, if_true]
    unfold handleNewPhoneConnection
    rw [hp]
    simp only [if_true]
    refine ⟨by trivial, ?_, ?_⟩
    · exact findPhone_append_of_none s.phones conn.phoneId _ hfind rfl
    · simp
  · intro s conn ph hproc hfind
    unfold processConn
    rw [hproc, hfind]
    simp only [Bool.not_true, Bool.false_and, Bool.false_eq_true, if_false, if_true]
    by_cases hlt : ph.lastCandidateIndex < conn.iceCandidates.length
    · simp only [hlt, if_true]
      constructor
      · trivial
      · rw [findPhone_setCursor, hfind]
        simp [Nat.max_eq_right (Nat.le_of_lt hlt)]
    · simp only [hlt, if_false]
      constructor
      · rw [List.drop_eq_nil_of_le (Nat.le_of_not_lt hlt)]
        rfl
      · rw [hfind]
        simp [Nat.max_eq_left (Nat.le_of_not_lt hlt)]

/-- C2 witness: a first-seen connection with one snapshot candidate, and an
already-processed connection whose log grew from cursor 1 to length 3. -/
theorem pollForPhones_cursorDiscipline_instance :
    ((processConn ⟨true, [], []⟩
        ⟨("p1"), some ⟨("answer"), ("a1")⟩, [⟨("c1"), none, none⟩]⟩).2
      = [PeerSignal.sdp ⟨("answer"), ("a1")⟩, PeerSignal.cand ⟨("c1"), none, none⟩])
    ∧ ((processConn ⟨true, [("p2")], [⟨("p2"), true, 1⟩]⟩
        ⟨("p2"), some ⟨("answer"), ("a2")⟩,
          [⟨("d0"), none, none⟩, ⟨("d1"), none, none⟩, ⟨("d2"), none, none⟩]⟩).2
      = [PeerSignal.cand ⟨("d1"), none, none⟩, PeerSignal.cand ⟨("d2"), none, none⟩]) := by
  constructor
  · exact (pollForPhones_cursorDiscipline.1 ⟨true, [], []⟩
      ⟨("p1"), some ⟨("answer"), ("a1")⟩, [⟨("c1"), none, none⟩]⟩
      ⟨("answer"), ("a1")⟩ rfl (by decide) rfl (by decide)).1
  · exact (pollForPhones_cursorDiscipline.2 ⟨true, [("p2")], [⟨("p2"), true, 1⟩]⟩
      ⟨("p2"), some ⟨("answer"), ("a2")⟩,
        [⟨("d0"), none, none⟩, ⟨("d1"), none, none⟩, ⟨("d2"), none, none⟩]⟩
      ⟨("p2"), true, 1⟩ (by decide) (by decide)).1

/-- C8 counterexample: with a first phone already processed, a second joined
connection's answer and candidates ARE given effect — `pollForPhones` signals
them to the very same shared initiator peer — contradicting the claim that
joined connections after the first are ignored by the display's negotiation. -/
theorem pollForPhones_secondConnectionSignalled :
    (pollForPhones ⟨true, [("p1")], [⟨("p1"), true, 1⟩]⟩
        [⟨("p1"), some ⟨("answer"), ("a1")⟩, [⟨("c1"), none, none⟩]⟩,
         ⟨("p2"), some ⟨("answer"), ("a2")⟩, [⟨("c2"), none, none⟩]⟩]).2
      = [PeerSignal.sdp ⟨("answer"), ("a2")⟩, PeerSignal.cand ⟨("c2"), none, none⟩] := by
  decide

/-- C8 amended.  The display's data model admits several joined connections,
but the display keeps a single local initiator peer; a connection joining
after others have already been processed is not ignored: its answer and
candidate log are signalled to that same shared peer exactly as for the first
connection, and it is registered in the per-phone map. -/
theorem processConn_laterConnectionSameAsFirst
    (s : TvPollState) (conn : PhoneConnectionView) (a : SdpSignal) (prev : String)
    (hp : s.peerPresent = true)
    (_hprev : prev ∈ s.processedPhones)
    (hnew : s.processedPhones.contains conn.phoneId = false)
    (hans : conn.answer = some a) :
    (processConn s conn).2 = PeerSignal.sdp a :: conn.iceCandidates.map PeerSignal.cand
    ∧ ∃ e ∈ (processConn s conn).1.phones,
        e.phoneId = conn.phoneId ∧ e.lastCandidateIndex = conn.iceCandidates.length := by
  unfold processConn
  rw [hnew, hans]
  simp only [Bool.not_false, Option.isSome_some, Bool.and_self, if_true]
  unfold handleNewPhoneConnection
  rw [hp]
  simp only [if_true]
  refine ⟨by trivial, ⟨conn.phoneId, false, conn.iceCandidates.length⟩, ?_, rfl, rfl⟩
  simp

/-- C8 amended witness: the second joined connection of the counterexample
state is signalled and registered. -/
theorem processConn_laterConnectionSameAsFirst_instance :
    (processConn ⟨true, [("p1")], [⟨("p1"), true, 1⟩]⟩
        ⟨("p2"), some ⟨("answer"), ("a2")⟩, [⟨("c2"), none, none⟩]⟩).2
      = [PeerSignal.sdp ⟨("answer"), ("a2")⟩, PeerSignal.cand ⟨("c2"), none, none⟩] := by
  exact (processConn_laterConnectionSameAsFirst
    ⟨true, [("p1")], [⟨("p1"), true, 1⟩]⟩
    ⟨("p2"), some ⟨("answer"), ("a2")⟩, [⟨("c2"), none, none⟩]⟩
    ⟨("answer"), ("a2")⟩ ("p1") rfl (by decide) (by decide) rfl).1

/-- The display's coarse connectivity phase. -/
inductive TvStatus where
  | disconnected
  | waiting
  | connected
deriving DecidableEq

/-- Display controller state relevant to the lifecycle handlers of
tvController.ts: observable fields, relay session id, the shared initiator
peer, the pending-candidate buffer, the processed set and per-phone map, and
whether the game and polling timers are scheduled. -/
structure TvState where
  connectionStatus : TvStatus
  phoneConnected : Bool
  connectedPhoneCount : Nat
  sessionId : Option String
  peerPresent : Bool
  pendingIce : List IceCandidate
  processedPhones : List String
  phones : List PhoneEntry
  gameRunning : Bool
  pollingActive : Bool
deriving DecidableEq

/-- Externally visible lifecycle effects of the display handlers. -/
inductive TvLifecycleEffect where
  | clearSessionCall (sid : String)
  | createPeer
  | destroyPeer
deriving DecidableEq

/-- `this.phones.delete(phoneId)`. -/
def removePhone (l : List PhoneEntry) (pid : String) : List PhoneEntry :=
  l.filter (fun p => !(p.phoneId == pid))

/-- Number of entries whose `connected` flag is set. -/
def connectedCount (l : List PhoneEntry) : Nat :=
  (l.filter (·.connected)).length

/-- `initializeSession`: surface the waiting phase and construct a fresh
initiator peer (the poll timer is only started later, by the offer signal). -/
def tvInitializeSession (s : TvState) : TvState × List TvLifecycleEffect :=
  ({ s with connectionStatus := TvStatus.waiting, peerPresent := true },
    [TvLifecycleEffect.createPeer])

/-- `reinitialize`: clear the relay session if one is known, reset the
session id, phone map, processed set, pending buffer and peer reference, then
run `initializeSession`.  Neither timer is touched. -/
def tvReinitialize (s : TvState) : TvState × List TvLifecycleEffect :=
  let effs := match s.sessionId with
    | some sid => [TvLifecycleEffect.clearSessionCall sid]
    | none => []
  let s1 := { s with sessionId := none, phones := [], processedPhones := [],
                     pendingIce := [], peerPresent := false }
  let r := tvInitializeSession s1
  (r.1, effs ++ r.2)

/-- The display's channel-close handler: drop the phone, recompute the
connected count, and when no connected phone remains surface `disconnected`,
stop the game timer and run the full `reinitialize` restart. -/
def tvOnClose (pid : String) (s : TvState) : TvState × List TvLifecycleEffect :=
  let phones := removePhone s.phones pid
  let cnt := connectedCount phones
  let s1 := { s with phones := phones, connectedPhoneCount := cnt,
                     phoneConnected := cnt != 0 }
  if cnt != 0 then (s1, [])
  else
    tvReinitialize { s1 with connectionStatus := TvStatus.disconnected,
                             gameRunning := false }

/-- The display's channel-error handler: drop the phone, recompute the
connected count, and when no connected phone remains surface `disconnected` —
nothing else: no game stop, no session teardown, no restart. -/
def tvOnError (pid : String) (s : TvState) : TvState × List TvLifecycleEffect :=
  let phones := removePhone s.phones pid
  let cnt := connectedCount phones
  let s1 := { s with phones := phones, connectedPhoneCount := cnt,
                     phoneConnected := cnt != 0 }
  if cnt != 0 then (s1, [])
  else ({ s1 with connectionStatus := TvStatus.disconnected }, [])

/-- The display's `destroy`: stop both timers, call `destroy()` on the peer
referenced by each entry of the phone map, and clear the map.  The
`_initiatorPeer` reference itself is never destroyed or dropped. -/
def tvDestroy (s : TvState) : TvState × List TvLifecycleEffect :=
  ({ s with gameRunning := false, pollingActive := false, phones := [] },
    s.phones.map (fun _ => TvLifecycleEffect.destroyPeer))

/-- A display state with one connected phone, a known session, a buffered
candidate, a scheduled poll timer and a running game. -/
def tvConnectedState : TvState :=
  ⟨TvStatus.connected, true, 1, some ("sess"), true, [⟨("pend"), none, none⟩],
    [("p1")], [⟨("p1"), true, 2⟩], true, true⟩

/-- C3 counterexample: on the display a channel error is NOT treated like a
channel close.  From a connected state, the error handler makes no
`clearSession` relay call, keeps the session id, pending buffer, peer,
processed set and both timers, and only surfaces `disconnected`, while the
close handler tears the session down and restarts into the waiting
(publishing) phase — so the two handlers differ. -/
theorem tvOnError_notLikeClose :
    (tvOnError ("p1") tvConnectedState).2 = []
    ∧ (tvOnError ("p1") tvConnectedState).1.sessionId = some ("sess")
    ∧ (tvOnError ("p1") tvConnectedState).1.pendingIce = [⟨("pend"), none, none⟩]
    ∧ (tvOnError ("p1") tvConnectedState).1.processedPhones = [("p1")]
    ∧ (tvOnError ("p1") tvConnectedState).1.gameRunning = true
    ∧ (tvOnError ("p1") tvConnectedState).1.connectionStatus = TvStatus.disconnected
    ∧ (tvOnClose ("p1") tvConnectedState).2
        = [TvLifecycleEffect.clearSessionCall ("sess"), TvLifecycleEffect.createPeer]
    ∧ (tvOnClose ("p1") tvConnectedState).1.sessionId = none
    ∧ (tvOnClose ("p1") tvConnectedState).1.connectionStatus = TvStatus.waiting
    ∧ tvOnError ("p1") tvConnectedState ≠ tvOnClose ("p1") tvConnectedState := by
  decide

/-- C3 amended.  On the display only a channel close triggers the full
restart.  A channel error merely removes the phone's entry and, when no
connected phone remains, surfaces `disconnected`: it makes no relay call and
keeps the session id, pending buffer, peer reference, processed set, cursors
and both timers.  A channel close after which no connected phone remains
surfaces `disconnected`, stops the game timer, calls `teardownSession`
(`clearSession`) for the known session, discards the negotiation state and
transitions back to the waiting/publishing phase with a fresh peer. -/
theorem tvOnError_amended (pid : String) (s : TvState) :
    ((tvOnError pid s).2 = []
      ∧ (tvOnError pid s).1.sessionId = s.sessionId
      ∧ (tvOnError pid s).1.pendingIce = s.pendingIce
      ∧ (tvOnError pid s).1.peerPresent = s.peerPresent
      ∧ (tvOnError pid s).1.processedPhones = s.processedPhones
      ∧ (tvOnError pid s).1.gameRunning = s.gameRunning
      ∧ (tvOnError pid s).1.pollingActive = s.pollingActive
      ∧ (tvOnError pid s).1.phones = removePhone s.phones pid)
    ∧ (connectedCount (removePhone s.phones pid) = 0
        → (tvOnError pid s).1.connectionStatus = TvStatus.disconnected)
    ∧ (connectedCount (removePhone s.phones pid) = 0 → ∀ sid, s.sessionId = some sid →
        (tvOnClose pid s).2 = [TvLifecycleEffect.clearSessionCall sid, TvLifecycleEffect.createPeer]
        ∧ (tvOnClose pid s).1.sessionId = none
        ∧ (tvOnClose pid s).1.phones = []
        ∧ (tvOnClose pid s).1.processedPhones = []
        ∧ (tvOnClose pid s).1.pendingIce = []
        ∧ (tvOnClose pid s).1.gameRunning = false
        ∧ (tvOnClose pid s).1.connectionStatus = TvStatus.waiting
        ∧ (tvOnClose pid s).1.peerPresent = true) := by
  refine ⟨?_, ?_, ?_⟩
  · unfold tvOnError
    by_cases h : connectedCount (removePhone s.phones pid) != 0 <;> simp [h]
  · intro h0
    unfold tvOnError
    simp [h0]
  · intro h0 sid hsid
    unfold tvOnClose tvReinitialize tvInitializeSession
    simp [h0, hsid]

/-- C3 amended witness: the amended characterisation applied to the concrete
connected state. -/
theorem tvOnError_amended_instance :
    (tvOnError ("p1") tvConnectedState).2 = []
    ∧ (tvOnError ("p1") tvConnectedState).1.connectionStatus = TvStatus.disconnected
    ∧ (tvOnClose ("p1") tvConnectedState).1.connectionStatus = TvStatus.waiting := by
  refine ⟨(tvOnError_amended ("p1") tvConnectedState).1.1,
    (tvOnError_amended ("p1") tvConnectedState).2.1 (by decide),
    ((tvOnError_amended ("p1") tvConnectedState).2.2 (by decide) ("sess") rfl).2.2.2.2.2.2.1⟩

/-- A display state in the awaiting-answer phase: initiator peer created and
session published, poll timer scheduled, but no phone joined yet. -/
def tvAwaitingState : TvState :=
  ⟨TvStatus.waiting, false, 0, some ("sess"), true, [], [], [], false, true⟩

/-- C9 (code bug evaluation).  Teardown does not release every resource on
every exit path.  (1) `destroy()` before any phone has joined emits no peer
destruction at all and leaves the initiator peer held, because it only
destroys peers reachable from the (empty) phone map.  (2) The close-triggered
transition out of `connected` runs `reinitialize` without ever clearing the
1-second polling interval, so the old timer is still scheduled after the
restart (and `startPollingForPhones` will later overwrite the handle with a
second interval). -/
theorem tvTeardown_leaks :
    ((tvDestroy tvAwaitingState).2 = []
      ∧ (tvDestroy tvAwaitingState).1.peerPresent = true)
    ∧ (tvOnClose ("p1") tvConnectedState).1.pollingActive = true := by
  decide

/-- The controller's coarse connectivity phase. -/
inductive PhoneStatus where
  | disconnected
  | connecting
  | connected
deriving DecidableEq

/-- Controller-side state read and written by the 500 ms candidate poll
(`pollForTvIceCandidates` in phoneController.ts). -/
structure PhonePollState where
  sessionId : Option String
  peerPresent : Bool
  connectionStatus : PhoneStatus
  lastTvCandidateIndex : Nat
deriving DecidableEq

/-- A `getTvIceCandidates` relay request issued by the controller. -/
structure FetchCall where
  sessionId : String
  afterIndex : Nat
deriving DecidableEq

/-- Result of one candidate poll tick: the new state, the relay request made
(if any) and the candidates signalled to the local peer, in order. -/
structure PollResult where
  state : PhonePollState
  fetch : Option FetchCall
  signalled : List IceCandidate
deriving DecidableEq

/-- The discovery transition (`pollForTvSession` finding a session, then
`createPeerAndConnect`): the session id is recorded, the non-initiator peer is
created, the discovered offer is signalled first and then every snapshot
candidate in order, and the read cursor is seeded to the snapshot length so
none of those indices is ever fetched again.  The phase at this point is
`connecting` (set by `connectToTv`). -/
def createPeerAndConnect (sid : String) (offer : SdpSignal)
    (initialTvCandidates : List IceCandidate) : PhonePollState × List PeerSignal :=
  (⟨some sid, true, PhoneStatus.connecting, initialTvCandidates.length⟩,
    PeerSignal.sdp offer :: initialTvCandidates.map PeerSignal.cand)

/-- One 500 ms candidate poll tick (`pollForTvIceCandidates`): bail out before
the network call when no session id or peer exists or the phase is already
`connected`; otherwise request the session log from the current cursor, signal
each returned candidate in order, and when anything was returned advance the
cursor to the returned `nextIndex` (the relay computes the response exactly as
`getTvIceCandidates` does, here applied to the session's log `log`). -/
def pollForTvIceCandidates (log : List IceCandidate) (s : PhonePollState) : PollResult :=
  match s.sessionId with
  | none => ⟨s, none, []⟩
  | some sid =>
      if !s.peerPresent || s.connectionStatus == PhoneStatus.connected then ⟨s, none, []⟩
      else if 0 < (log.drop s.lastTvCandidateIndex).length then
        ⟨{ s with lastTvCandidateIndex :=
              s.lastTvCandidateIndex + (log.drop s.lastTvCandidateIndex).length },
          some ⟨sid, s.lastTvCandidateIndex⟩, log.drop s.lastTvCandidateIndex⟩
      else ⟨s, some ⟨sid, s.lastTvCandidateIndex⟩, []⟩

/-- A run of candidate poll ticks against a (possibly growing) session log,
collecting every relay request made. -/
def runCandidatePolls (s : PhonePollState) : List (List IceCandidate) → PhonePollState × List FetchCall
  | [] => (s, [])
  | log :: rest =>
      let r := pollForTvIceCandidates log s
      let r2 := runCandidatePolls r.state rest
      (r2.1, r.fetch.toList ++ r2.2)

theorem pollForTvIceCandidates_fetch_spec (log : List IceCandidate) (s : PhonePollState)
    (f : FetchCall) (hf : (pollForTvIceCandidates log s).fetch = some f) :
    f.afterIndex = s.lastTvCandidateIndex
    ∧ (pollForTvIceCandidates log s).signalled = log.drop s.lastTvCandidateIndex
    ∧ (pollForTvIceCandidates log s).state.lastTvCandidateIndex
        = s.lastTvCandidateIndex + (log.drop s.lastTvCandidateIndex).length := by
  unfold pollForTvIceCandidates at hf ⊢
  cases hs : s.sessionId with
  | none => rw [hs] at hf; simp at hf
  | some sid =>
      rw [hs] at hf
      dsimp only at hf ⊢
      by_cases h1 : (!s.peerPresent || s.connectionStatus == PhoneStatus.connected) = true
      · rw [if_pos h1] at hf; simp at hf
      · rw [if_neg h1] at hf ⊢
        by_cases h2 : 0 < (log.drop s.lastTvCandidateIndex).length
        · rw [if_pos h2] at hf ⊢
          simp only [Option.some.injEq] at hf
          subst hf
          exact ⟨rfl, rfl, rfl⟩
        · rw [if_neg h2] at hf ⊢
          simp only [Option.some.injEq] at hf
          subst hf
          have hz : (log.drop s.lastTvCandidateIndex).length = 0 := Nat.eq_zero_of_not_pos h2
          refine ⟨rfl, (List.length_eq_zero.mp hz).symm, ?_⟩
          dsimp only
          rw [hz]
          exact (Nat.add_zero _).symm

theorem pollForTvIceCandidates_cursor_mono (log : List IceCandidate) (s : PhonePollState) :
    s.lastTvCandidateIndex ≤ (pollForTvIceCandidates log s).state.lastTvCandidateIndex := by
  unfold pollForTvIceCandidates
  cases s.sessionId with
  | none => exact Nat.le_refl _
  | some sid =>
      dsimp only
      by_cases h1 : (!s.peerPresent || s.connectionStatus == PhoneStatus.connected) = true
      · rw [if_pos h1]
      · rw [if_neg h1]
        by_cases h2 : 0 < (log.drop s.lastTvCandidateIndex).length
        · rw [if_pos h2]
          exact Nat.le_add_right _ _
        · rw [if_neg h2]

/-- C6.  Once the controller is `connected` the candidate poll makes no relay
request at all (the phase is checked before the network call); every request
it does make asks exactly for the indices at or beyond the current cursor,
which was seeded to the length of the discovery snapshot and advances by the
number of candidates delivered, never decreasing — so across any run of poll
ticks no already-delivered index is ever requested again. -/
theorem pollForTvIceCandidates_noRefetch :
    (∀ (log : List IceCandidate) (s : PhonePollState),
      s.connectionStatus = PhoneStatus.connected → pollForTvIceCandidates log s = ⟨s, none, []⟩)
    ∧ (∀ (log : List IceCandidate) (s : PhonePollState) (f : FetchCall),
      (pollForTvIceCandidates log s).fetch = some f →
      f.afterIndex = s.lastTvCandidateIndex
      ∧ (pollForTvIceCandidates log s).signalled = log.drop s.lastTvCandidateIndex
      ∧ (pollForTvIceCandidates log s).state.lastTvCandidateIndex
          = s.lastTvCandidateIndex + (log.drop s.lastTvCandidateIndex).length)
    ∧ (∀ (sid : String) (offer : SdpSignal) (cs : List IceCandidate),
      (createPeerAndConnect sid offer cs).1.lastTvCandidateIndex = cs.length
      ∧ (createPeerAndConnect sid offer cs).2
          = PeerSignal.sdp offer :: cs.map PeerSignal.cand)
    ∧ (∀ (s : PhonePollState) (logs : List (List IceCandidate)) (f : FetchCall),
      f ∈ (runCandidatePolls s logs).2 → s.lastTvCandidateIndex ≤ f.afterIndex) := by
  refine ⟨?_, ?_, ?_, ?_⟩
  · intro log s hc
    unfold pollForTvIceCandidates
    cases s.sessionId with
    | none => rfl
    | some sid => simp [hc]
  · exact pollForTvIceCandidates_fetch_spec
  · intro sid offer cs
    exact ⟨rfl, rfl⟩
  · intro s logs
    induction logs generalizing s with
    | nil => intro f hf; simp [runCandidatePolls] at hf
    | cons log rest ih =>
        intro f hf
        simp only [runCandidatePolls, List.mem_append] at hf
        rcases hf with hf | hf
        · have hmem : (pollForTvIceCandidates log s).fetch = some f := by
            cases hx : (pollForTvIceCandidates log s).fetch with
            | none => rw [hx] at hf; simp [Option.toList] at hf
            | some g =>
                rw [hx] at hf
                simp [Option.toList] at hf
                rw [hf]
          have := (pollForTvIceCandidates_fetch_spec log s f hmem).1
          omega
        · have h1 := ih (pollForTvIceCandidates log s).state f hf
          have h2 := pollForTvIceCandidates_cursor_mono log s
          omega

/-- C6 witness: a connected controller makes no request; a connecting one with
cursor 1 against a two-candidate log requests index 1, receives one candidate
and advances to 2; the seed matches the snapshot length; a run never requests
below the starting cursor. -/
theorem pollForTvIceCandidates_noRefetch_instance :
    (pollForTvIceCandidates [⟨("c0"), none, none⟩]
        ⟨some ("s"), true, PhoneStatus.connected, 0⟩
      = ⟨⟨some ("s"), true, PhoneStatus.connected, 0⟩, none, []⟩)
    ∧ ((pollForTvIceCandidates [⟨("c0"), none, none⟩, ⟨("c1"), none, none⟩]
        ⟨some ("s"), true, PhoneStatus.connecting, 1⟩).state.lastTvCandidateIndex = 1 + 1)
    ∧ ((createPeerAndConnect ("s") ⟨("offer"), ("o")⟩ [⟨("c0"), none, none⟩]).1.lastTvCandidateIndex
        = 1)
    ∧ (1 ≤ FetchCall.afterIndex ⟨("s"), 1⟩) := by
  refine ⟨?_, ?_, ?_, ?_⟩
  · exact pollForTvIceCandidates_noRefetch.1 [⟨("c0"), none, none⟩]
      ⟨some ("s"), true, PhoneStatus.connected, 0⟩ rfl
  · have h := (pollForTvIceCandidates_noRefetch.2.1 [⟨("c0"), none, none⟩, ⟨("c1"), none, none⟩]
      ⟨some ("s"), true, PhoneStatus.connecting, 1⟩ ⟨("s"), 1⟩ (by decide)).2.2
    simpa using h
  · exact (pollForTvIceCandidates_noRefetch.2.2.1 ("s") ⟨("offer"), ("o")⟩
      [⟨("c0"), none, none⟩]).1
  · exact pollForTvIceCandidates_noRefetch.2.2.2
      ⟨some ("s"), true, PhoneStatus.connecting, 1⟩ [[⟨("c0"), none, none⟩, ⟨("c1"), none, none⟩]]
      ⟨("s"), 1⟩ (by decide)

/-- Display-side signalling state used by `handlePeerSignal`: the relay
session id (once the publish round-trip completed) and the buffer of
candidates generated before it was known. -/
structure TvSigState where
  sessionId : Option String
  pending : List IceCandidate
deriving DecidableEq

/-- A `signal` event emitted by the display's local peer: the local offer
becoming ready, or a local reachability candidate. -/
inductive TvSignalEvent where
  | offerReady (sdp : String)
  | candidateReady (c : IceCandidate)
deriving DecidableEq

/-- Relay mutations issued by the display's signal handler, in call order. -/
inductive RelaySend where
  | createSess (offer : SdpSignal)
  | sendCand (c : IceCandidate)
deriving DecidableEq

/-- `handlePeerSignal` (tvController.ts): an offer with a non-empty sdp
creates the session, records the id, then flushes the pending buffer in
original order and clears it; a candidate is sent immediately when the
session id is known and buffered otherwise. -/
def tvHandlePeerSignal (newSid : String) (s : TvSigState) :
    TvSignalEvent → TvSigState × List RelaySend
  | TvSignalEvent.offerReady sdp =>
      if sdp == ("") then (s, [])
      else (⟨some newSid, []⟩,
        RelaySend.createSess ⟨("offer"), sdp⟩ :: s.pending.map RelaySend.sendCand)
  | TvSignalEvent.candidateReady c =>
      match s.sessionId with
      | some _ => (s, [RelaySend.sendCand c])
      | none => ({ s with pending := s.pending ++ [c] }, [])

/-- A run of display signal events, concatenating the relay sends. -/
def runTvSignals (newSid : String) (s : TvSigState) :
    List TvSignalEvent → TvSigState × List RelaySend
  | [] => (s, [])
  | e :: rest =>
      let r := tvHandlePeerSignal newSid s e
      let r2 := runTvSignals newSid r.1 rest
      (r2.1, r.2 ++ r2.2)

/-- The candidates carried by a display signal event list, in generation order. -/
def tvEventCandidates : List TvSignalEvent → List IceCandidate
  | [] => []
  | TvSignalEvent.offerReady _ :: rest => tvEventCandidates rest
  | TvSignalEvent.candidateReady c :: rest => c :: tvEventCandidates rest

/-- The candidates actually delivered to the relay, in send order. -/
def sentCandidates : List RelaySend → List IceCandidate
  | [] => []
  | RelaySend.createSess _ :: rest => sentCandidates rest
  | RelaySend.sendCand c :: rest => c :: sentCandidates rest

/-- Controller-side signalling state used by `handleSignal`
(phoneController.ts): the discovered session id, the connection id returned by
`joinSession` once known, and the pre-join candidate buffer. -/
structure PhoneSigState where
  sessionId : Option String
  phoneId : Option String
  pending : List IceCandidate
deriving DecidableEq

/-- A `signal` event emitted by the controller's local peer. -/
inductive PhoneSignalEvent where
  | answerReady (sdp : String)
  | candidateReady (c : IceCandidate)
deriving DecidableEq

/-- Relay mutations issued by the controller's signal handler. -/
inductive PhoneRelaySend where
  | joinSess (sid : String) (answer : SdpSignal)
  | sendCand (c : IceCandidate)
deriving DecidableEq

/-- `handleSignal` (phoneController.ts): an answer with a non-empty sdp joins
the session (if one is known), records the returned connection id, then
flushes the pending buffer in original order and clears it; a candidate is
sent immediately when the connection id is known and buffered otherwise. -/
def phoneHandleSignal (newPid : String) (s : PhoneSigState) :
    PhoneSignalEvent → PhoneSigState × List PhoneRelaySend
  | PhoneSignalEvent.answerReady sdp =>
      if sdp == ("") then (s, [])
      else
        match s.sessionId with
        | none => (s, [])
        | some sid =>
            (⟨some sid, some newPid, []⟩,
              PhoneRelaySend.joinSess sid ⟨("answer"), sdp⟩
                :: s.pending.map PhoneRelaySend.sendCand)
  | PhoneSignalEvent.candidateReady c =>
      match s.phoneId with
      | some _ => (s, [PhoneRelaySend.sendCand c])
      | none => ({ s with pending := s.pending ++ [c] }, [])

/-- A run of controller signal events. -/
def runPhoneSignals (newPid : String) (s : PhoneSigState) :
    List PhoneSignalEvent → PhoneSigState × List PhoneRelaySend
  | [] => (s, [])
  | e :: rest =>
      let r := phoneHandleSignal newPid s e
      let r2 := runPhoneSignals newPid r.1 rest
      (r2.1, r.2 ++ r2.2)

/-- The candidates carried by a controller signal event list, in order. -/
def phoneEventCandidates : List PhoneSignalEvent → List IceCandidate
  | [] => []
  | PhoneSignalEvent.answerReady _ :: rest => phoneEventCandidates rest
  | PhoneSignalEvent.candidateReady c :: rest => c :: phoneEventCandidates rest

/-- The candidates the controller delivered to the relay, in send order. -/
def phoneSentCandidates : List PhoneRelaySend → List IceCandidate
  | [] => []
  | PhoneRelaySend.joinSess _ _ :: rest => phoneSentCandidates rest
  | PhoneRelaySend.sendCand c :: rest => c :: phoneSentCandidates rest

/-- Classifier for candidate-only event lists on the display side. -/
def tvIsCandidateEvent : TvSignalEvent → Bool
  | TvSignalEvent.offerReady _ => false
  | TvSignalEvent.candidateReady _ => true

/-- Classifier for candidate-only event lists on the controller side. -/
def phoneIsCandidateEvent : PhoneSignalEvent → Bool
  | PhoneSignalEvent.answerReady _ => false
  | PhoneSignalEvent.candidateReady _ => true

theorem runTvSignals_buffering (newSid : String) :
    ∀ (pre : List TvSignalEvent), (∀ e ∈ pre, tvIsCandidateEvent e = true) →
    ∀ (buf : List IceCandidate),
      runTvSignals newSid ⟨none, buf⟩ pre = (⟨none, buf ++ tvEventCandidates pre⟩, []) := by
  intro pre
  induction pre with
  | nil => intro _ buf; simp [runTvSignals, tvEventCandidates]
  | cons e rest ih =>
      intro hall buf
      cases e with
      | offerReady sdp =>
          have := hall _ (List.mem_cons_self _ _)
          simp [tvIsCandidateEvent] at this
      | candidateReady c =>
          have hrest : ∀ e ∈ rest, tvIsCandidateEvent e = true :=
            fun e he => hall e (List.mem_cons_of_mem _ he)
          simp [runTvSignals, tvHandlePeerSignal, tvEventCandidates, ih hrest]

theorem runTvSignals_immediate (newSid : String) (sid : String) :
    ∀ (post : List TvSignalEvent), (∀ e ∈ post, tvIsCandidateEvent e = true) →
    (runTvSignals newSid ⟨some sid, []⟩ post).2
      = (tvEventCandidates post).map RelaySend.sendCand := by
  intro post
  induction post with
  | nil => intro _; simp [runTvSignals, tvEventCandidates]
  | cons e rest ih =>
      intro hall
      cases e with
      | offerReady sdp =>
          have := hall _ (List.mem_cons_self _ _)
          simp [tvIsCandidateEvent] at this
      | candidateReady c =>
          have hrest : ∀ e ∈ rest, tvIsCandidateEvent e = true :=
            fun e he => hall e (List.mem_cons_of_mem _ he)
          simp [runTvSignals, tvHandlePeerSignal, tvEventCandidates, ih hrest]

theorem runTvSignals_append (newSid : String) (l1 l2 : List TvSignalEvent) :
    ∀ s, runTvSignals newSid s (l1 ++ l2)
      = ((runTvSignals newSid (runTvSignals newSid s l1).1 l2).1,
          (runTvSignals newSid s l1).2
            ++ (runTvSignals newSid (runTvSignals newSid s l1).1 l2).2) := by
  induction l1 with
  | nil => intro s; simp [runTvSignals]
  | cons e rest ih =>
      intro s
      simp [runTvSignals, ih]

theorem runPhoneSignals_append (newPid : String) (l1 l2 : List PhoneSignalEvent) :
    ∀ s, runPhoneSignals newPid s (l1 ++ l2)
      = ((runPhoneSignals newPid (runPhoneSignals newPid s l1).1 l2).1,
          (runPhoneSignals newPid s l1).2
            ++ (runPhoneSignals newPid (runPhoneSignals newPid s l1).1 l2).2) := by
  induction l1 with
  | nil => intro s; simp [runPhoneSignals]
  | cons e rest ih =>
      intro s
      simp [runPhoneSignals, ih]

theorem runPhoneSignals_buffering (newPid : String) (sess : Option String) :
    ∀ (pre : List PhoneSignalEvent), (∀ e ∈ pre, phoneIsCandidateEvent e = true) →
    ∀ (buf : List IceCandidate),
      runPhoneSignals newPid ⟨sess, none, buf⟩ pre
        = (⟨sess, none, buf ++ phoneEventCandidates pre⟩, []) := by
  intro pre
  induction pre with
  | nil => intro _ buf; simp [runPhoneSignals, phoneEventCandidates]
  | cons e rest ih =>
      intro hall buf
      cases e with
      | answerReady sdp =>
          have := hall _ (List.mem_cons_self _ _)
          simp [phoneIsCandidateEvent] at this
      | candidateReady c =>
          have hrest : ∀ e ∈ rest, phoneIsCandidateEvent e = true :=
            fun e he => hall e (List.mem_cons_of_mem _ he)
          simp [runPhoneSignals, phoneHandleSignal, phoneEventCandidates, ih hrest]

theorem runPhoneSignals_immediate (newPid : String) (sess : Option String) (pid : String) :
    ∀ (post : List PhoneSignalEvent), (∀ e ∈ post, phoneIsCandidateEvent e = true) →
    (runPhoneSignals newPid ⟨sess, some pid, []⟩ post).2
      = (phoneEventCandidates post).map PhoneRelaySend.sendCand := by
  intro post
  induction post with
  | nil => intro _; simp [runPhoneSignals, phoneEventCandidates]
  | cons e rest ih =>
      intro hall
      cases e with
      | answerReady sdp =>
          have := hall _ (List.mem_cons_self _ _)
          simp [phoneIsCandidateEvent] at this
      | candidateReady c =>
          have hrest : ∀ e ∈ rest, phoneIsCandidateEvent e = true :=
            fun e he => hall e (List.mem_cons_of_mem _ he)
          simp [runPhoneSignals, phoneHandleSignal, phoneEventCandidates, ih hrest]

/-- C7.  On both roles, candidates generated before the relay identifier is
known (the display's session id; the controller's connection id) are buffered
and flushed in original generation order the moment the identifier becomes
available, and candidates generated afterwards are sent immediately: over any
event sequence of candidates around the single offer (resp. answer) signal,
the relay receives exactly `createSession` (resp. `joinSession`) followed by
every generated candidate, in generation order — none dropped, none
reordered. -/
theorem handshakeCandidateBuffering :
    (∀ (newSid sdp : String) (pre post : List TvSignalEvent),
      (sdp == ("")) = false →
      (∀ e ∈ pre, tvIsCandidateEvent e = true) →
      (∀ e ∈ post, tvIsCandidateEvent e = true) →
      (runTvSignals newSid ⟨none, []⟩ (pre ++ TvSignalEvent.offerReady sdp :: post)).2
        = RelaySend.createSess ⟨("offer"), sdp⟩
            :: (tvEventCandidates pre ++ tvEventCandidates post).map RelaySend.sendCand)
    ∧ (∀ (newPid sid sdp : String) (pre post : List PhoneSignalEvent),
      (sdp == ("")) = false →
      (∀ e ∈ pre, phoneIsCandidateEvent e = true) →
      (∀ e ∈ post, phoneIsCandidateEvent e = true) →
      (runPhoneSignals newPid ⟨some sid, none, []⟩
          (pre ++ PhoneSignalEvent.answerReady sdp :: post)).2
        = PhoneRelaySend.joinSess sid ⟨("answer"), sdp⟩
            :: (phoneEventCandidates pre ++ phoneEventCandidates post).map
                PhoneRelaySend.sendCand) := by
  constructor
  · intro newSid sdp pre post hsdp hpre hpost
    rw [runTvSignals_append, runTvSignals_buffering newSid pre hpre []]
    have hstep : runTvSignals newSid ⟨none, tvEventCandidates pre⟩
        (TvSignalEvent.offerReady sdp :: post)
        = ((runTvSignals newSid ⟨some newSid, []⟩ post).1,
            (RelaySend.createSess ⟨("offer"), sdp⟩
              :: (tvEventCandidates pre).map RelaySend.sendCand)
              ++ (runTvSignals newSid ⟨some newSid, []⟩ post).2) := by
      simp [runTvSignals, tvHandlePeerSignal, hsdp]
    simp only [List.nil_append]
    rw [hstep, runTvSignals_immediate newSid newSid post hpost]
    simp
  · intro newPid sid sdp pre post hsdp hpre hpost
    rw [runPhoneSignals_append, runPhoneSignals_buffering newPid (some sid) pre hpre []]
    have hstep : runPhoneSignals newPid ⟨some sid, none, phoneEventCandidates pre⟩
        (PhoneSignalEvent.answerReady sdp :: post)
        = ((runPhoneSignals newPid ⟨some sid, some newPid, []⟩ post).1,
            (PhoneRelaySend.joinSess sid ⟨("answer"), sdp⟩
              :: (phoneEventCandidates pre).map PhoneRelaySend.sendCand)
              ++ (runPhoneSignals newPid ⟨some sid, some newPid, []⟩ post).2) := by
      simp [runPhoneSignals, phoneHandleSignal, hsdp]
    simp only [List.nil_append]
    rw [hstep, runPhoneSignals_immediate newPid (some sid) newPid post hpost]
    simp

/-- C7 witness: one candidate generated before and one after the offer
(resp. answer) signal; the relay receives both in order on each role. -/
theorem handshakeCandidateBuffering_instance :
    ((runTvSignals ("sess") ⟨none, []⟩
        [TvSignalEvent.candidateReady ⟨("t1"), none, none⟩,
         TvSignalEvent.offerReady ("o"),
         TvSignalEvent.candidateReady ⟨("t2"), none, none⟩]).2
      = [RelaySend.createSess ⟨("offer"), ("o")⟩,
         RelaySend.sendCand ⟨("t1"), none, none⟩,
         RelaySend.sendCand ⟨("t2"), none, none⟩])
    ∧ ((runPhoneSignals ("pid") ⟨some ("sess"), none, []⟩
        [PhoneSignalEvent.candidateReady ⟨("p1"), none, none⟩,
         PhoneSignalEvent.answerReady ("a"),
         PhoneSignalEvent.candidateReady ⟨("p2"), none, none⟩]).2
      = [PhoneRelaySend.joinSess ("sess") ⟨("answer"), ("a")⟩,
         PhoneRelaySend.sendCand ⟨("p1"), none, none⟩,
         PhoneRelaySend.sendCand ⟨("p2"), none, none⟩]) := by
  constructor
  · have h := handshakeCandidateBuffering.1 ("sess") ("o")
      [TvSignalEvent.candidateReady ⟨("t1"), none, none⟩]
      [TvSignalEvent.candidateReady ⟨("t2"), none, none⟩]
      (by decide) (by decide) (by decide)
    simpa [tvEventCandidates] using h
  · have h := handshakeCandidateBuffering.2 ("pid") ("sess") ("a")
      [PhoneSignalEvent.candidateReady ⟨("p1"), none, none⟩]
      [PhoneSignalEvent.candidateReady ⟨("p2"), none, none⟩]
      (by decide) (by decide) (by decide)
    simpa [phoneEventCandidates] using h

/-- Application-level game phase carried in the display's status payloads. -/
inductive GameStatus where
  | waiting
  | playing
  | gameover
deriving DecidableEq

/-- The controller's observable fields (phoneController.ts `@observable`s
relevant here). -/
structure PhoneObsState where
  isConnected : Bool
  connectionStatus : PhoneStatus
  gameStatus : GameStatus
  score : Int
deriving DecidableEq

/-- A well-formed `gameState` payload from the display (`TvMessage`): the
status/score snapshot.  The TypeScript handler casts the parsed JSON without
further checks; the display only ever sends this shape. -/
structure TvMessageData where
  status : GameStatus
  score : Int
deriving DecidableEq

/-- Events of the controller's peer connection that touch the observable
state: channel open, channel close, channel error, and incoming data — where
`none` stands for a payload that fails to parse or whose `type` is not
`gameState` (dropped by the catch / type check). -/
inductive PhonePeerEvent where
  | connect
  | close
  | error
  | data (msg : Option TvMessageData)
deriving DecidableEq

/-- The controller's peer event handlers (`peer.on(connect | close | error)`
and `handleTvMessage`): connect surfaces the connected phase; close resets the
phase to disconnected and the game status to waiting; error only surfaces
disconnected; a `gameState` payload overwrites both game status and score, and
any other payload is dropped. -/
def phonePeerStep (s : PhoneObsState) : PhonePeerEvent → PhoneObsState
  | PhonePeerEvent.connect =>
      { s with isConnected := true, connectionStatus := PhoneStatus.connected }
  | PhonePeerEvent.close =>
      { s with isConnected := false, connectionStatus := PhoneStatus.disconnected,
               gameStatus := GameStatus.waiting }
  | PhonePeerEvent.error =>
      { s with isConnected := false, connectionStatus := PhoneStatus.disconnected }
  | PhonePeerEvent.data none => s
  | PhonePeerEvent.data (some m) =>
      { s with gameStatus := m.status, score := m.score }

/-- C10.  When the controller's channel closes its game status is reset to
waiting and its connection state cleared, but the exposed score keeps its last
value; and across every peer event, the score changes only when a `gameState`
payload with a different score arrives. -/
theorem phonePeerStep_scoreRetention :
    (∀ s : PhoneObsState,
      (phonePeerStep s PhonePeerEvent.close).score = s.score
      ∧ (phonePeerStep s PhonePeerEvent.close).gameStatus = GameStatus.waiting
      ∧ (phonePeerStep s PhonePeerEvent.close).isConnected = false
      ∧ (phonePeerStep s PhonePeerEvent.close).connectionStatus = PhoneStatus.disconnected)
    ∧ (∀ (s : PhoneObsState) (e : PhonePeerEvent),
      (phonePeerStep s e).score ≠ s.score →
      ∃ m, e = PhonePeerEvent.data (some m) ∧ m.score ≠ s.score) := by
  constructor
  · intro s
    exact ⟨rfl, rfl, rfl, rfl⟩
  · intro s e
    cases e with
    | connect => intro h; exact absurd rfl h
    | close => intro h; exact absurd rfl h
    | error => intro h; exact absurd rfl h
    | data msg =>
        cases msg with
        | none => intro h; exact absurd rfl h
        | some m =>
            intro h
            exact ⟨m, rfl, by simpa using h⟩

/-- C10 witness: a close event on a playing state with score 7 keeps the
score and resets the status; a payload event carrying score 9 is the only way
the score moved. -/
theorem phonePeerStep_scoreRetention_instance :
    ((phonePeerStep ⟨true, PhoneStatus.connected, GameStatus.playing, 7⟩
        PhonePeerEvent.close).score = 7)
    ∧ (∃ m, PhonePeerEvent.data (some ⟨GameStatus.playing, 9⟩)
          = PhonePeerEvent.data (some m) ∧ m.score ≠ (7 : Int)) := by
  constructor
  · exact (phonePeerStep_scoreRetention.1
      ⟨true, PhoneStatus.connected, GameStatus.playing, 7⟩).1
  · exact phonePeerStep_scoreRetention.2
      ⟨true, PhoneStatus.connected, GameStatus.playing, 7⟩
      (PhonePeerEvent.data (some ⟨GameStatus.playing, 9⟩)) (by decide)
